import Mathlib

set_option maxRecDepth 8000

/-
Verification development for the gget repository (main.go).

The program builds a docker image once, then runs one container per target
URL (git-dumper inside a sandbox), streaming and classifying the container
log output, and removing each container afterwards.  External dependencies
(the docker engine client and Go's net/url parser) are modelled as oracle
parameters; the control flow, event ordering, error handling and the log
classifier are translated from main.go.
-/

namespace Gget

/-! ## Byte-level helpers (Go strings/bytes, ASCII)

Chunks written to the log writer are byte slices; we model them as lists of
characters.  litAt s l tests whether l occurs at the head of s;
containsSub models Go strings.Contains. -/

def litAt : List Char → List Char → Bool
  | _, [] => true
  | [], _ :: _ => false
  | c :: cs, d :: ds => (c == d) && litAt cs ds

def containsSub : List Char → List Char → Bool
  | s, l =>
    if litAt s l then true
    else
      match s with
      | [] => false
      | _ :: s2 => containsSub s2 l

/-! ## Model of Go regexp matching for the fixed URLRegex (main.go line 35)

URLRegex is the pattern
https?://(www\.)?[-a-zA-Z0-9@:%._\+~#=]\x7b1,256\x7d\.[a-zA-Z0-9()]\x7b1,6\x7d\b([-a-zA-Z0-9()@:%_\+.~#?&//=]*)
compiled with regexp.MustCompile and used only through Find, which returns
the leftmost match, choosing among matches at the leftmost position the one
a backtracking (Perl-style, greedy-first) search finds first.  We embed the
pattern as a small regex AST whose matcher returns the preference-ordered
list of match ends, mirroring exactly those semantics. -/

inductive RE where
  | lit : List Char → RE
  | opt : RE → RE
  | rep : (Char → Bool) → Nat → Nat → RE
  | star : (Char → Bool) → RE
  | wb : RE
  | cat : RE → RE → RE

/-- Length of the maximal leading run of characters satisfying cls. -/
def leadingRun (cls : Char → Bool) : List Char → Nat
  | [] => 0
  | c :: cs => if cls c then leadingRun cls cs + 1 else 0

/-- Word character in the sense of Go regexp's ASCII word boundary. -/
def wordChar (c : Char) : Bool := c.isAlpha || c.isDigit || c == '_'

def wordAt (s : List Char) (i : Nat) : Bool :=
  match s[i]? with
  | some c => wordChar c
  | none => false

def boundaryAt (s : List Char) (i : Nat) : Bool :=
  (if i == 0 then false else wordAt s (i - 1)) != wordAt s i

/-- Preference-ordered list of end positions of a match of r starting at
position i of s.  Greedy constructs try longer extents first; cat uses
list bind, which preserves backtracking preference order. -/
def matchEnds (s : List Char) : RE → Nat → List Nat
  | .lit l, i => if litAt (s.drop i) l then [i + l.length] else []
  | .opt r, i => matchEnds s r i ++ [i]
  | .rep cls lo hi, i =>
    let run := min (leadingRun cls (s.drop i)) hi
    if lo ≤ run then (List.range (run + 1 - lo)).map (fun k => i + (run - k)) else []
  | .star cls, i =>
    let run := leadingRun cls (s.drop i)
    (List.range (run + 1)).map (fun k => i + (run - k))
  | .wb, i => if boundaryAt s i then [i] else []
  | .cat a b, i => (matchEnds s a i).flatMap (fun j => matchEnds s b j)

/-- Leftmost search: first start position with a nonempty preference list. -/
def findFrom (s : List Char) (r : RE) : Nat → Nat → Option (Nat × Nat)
  | _, 0 => none
  | i, fuel + 1 =>
    match matchEnds s r i with
    | [] => findFrom s r (i + 1) fuel
    | j :: _ => some (i, j)

def reFind (s : List Char) (r : RE) : Option (Nat × Nat) :=
  findFrom s r 0 (s.length + 1)

/-- Character class [-a-zA-Z0-9@:%._\+~#=] of URLRegex. -/
def clsA (c : Char) : Bool :=
  (c == '-') || c.isAlpha || c.isDigit || (c == '@') || (c == ':') || (c == '%') ||
    (c == '.') || (c == '_') || (c == '+') || (c == '~') || (c == '#') || (c == '=')

/-- Character class [a-zA-Z0-9()] of URLRegex. -/
def clsB (c : Char) : Bool :=
  c.isAlpha || c.isDigit || (c == '(') || (c == ')')

/-- Character class [-a-zA-Z0-9()@:%_\+.~#?&//=] of URLRegex. -/
def clsC (c : Char) : Bool :=
  (c == '-') || c.isAlpha || c.isDigit || (c == '(') || (c == ')') || (c == '@') ||
    (c == ':') || (c == '%') || (c == '_') || (c == '+') || (c == '.') || (c == '~') ||
    (c == '#') || (c == '?') || (c == '&') || (c == '/') || (c == '=')

/-- The URLRegex pattern of main.go line 35 as a regex AST. -/
def URLRegex : RE :=
  .cat (.lit "http".toList)
    (.cat (.opt (.lit "s".toList))
      (.cat (.lit "://".toList)
        (.cat (.opt (.lit "www.".toList))
          (.cat (.rep clsA 1 256)
            (.cat (.lit ".".toList)
              (.cat (.rep clsB 1 6)
                (.cat .wb (.star clsC))))))))

/-- Model of g.URLRegex.Find(p): the leftmost match as a byte slice, or the
empty slice when there is no match (Find returns nil, printed as ""). -/
def urlFind (p : List Char) : List Char :=
  match reFind p URLRegex with
  | some (i, j) => (p.drop i).take (j - i)
  | none => []

/-! ## LogClassifier: GitDumperLog.Write (main.go lines 86-95)

Write inspects one chunk: a chunk containing "Fetching" is printed as a
FETCHING event together with the first URLRegex match; otherwise a chunk
containing "Testing" is printed as a TESTING event with the first match;
otherwise the raw chunk is printed.  Exactly one of the three branches
runs per chunk, and there is no buffering across chunks.  Write always
returns (len p, nil). -/

inductive LogEvent where
  | fetching : List Char → LogEvent
  | testing : List Char → LogEvent
  | other : List Char → LogEvent
  deriving DecidableEq

def fetchingSentinel : List Char := "Fetching".toList

def testingSentinel : List Char := "Testing".toList

/-- The classification performed by GitDumperLog.Write on one chunk. -/
def classify (p : List Char) : LogEvent :=
  if containsSub p fetchingSentinel then .fetching (urlFind p)
  else if containsSub p testingSentinel then .testing (urlFind p)
  else .other p

/-! ## Data model of the engine interaction

The docker client is an external dependency; we model it as an oracle
record giving the outcome of each engine call.  Go's url.Parse is likewise
external and is modelled as an oracle function returning either a parse
error or the parsed URL's hostname (the only component the program uses).
Each engine call issued by the program is recorded as an event; LogFatal
(log.Fatal, which exits the process with status 1) is modelled by the
computation stopping with an error value carrying the message. -/

inductive Fatal where
  | parseError : String → Fatal
  | engineError : String → Fatal
  | buildError : String → Fatal
  deriving DecidableEq

instance {ε α : Type} [DecidableEq ε] [DecidableEq α] : DecidableEq (Except ε α) :=
  fun x y =>
    match x, y with
    | .error a, .error b =>
      if h : a = b then .isTrue (by rw [h]) else .isFalse (by intro hc; cases hc; exact h rfl)
    | .error _, .ok _ => .isFalse (by intro hc; cases hc)
    | .ok _, .error _ => .isFalse (by intro hc; cases hc)
    | .ok a, .ok b =>
      if h : a = b then .isTrue (by rw [h]) else .isFalse (by intro hc; cases hc; exact h rfl)

/-- One decoded line of the docker image-build JSON-lines response
(the ImageBuildResponse struct fields of main.go lines 166-179).  JSON
decoding itself is external; the oracle supplies decoded lines. -/
structure BuildLine where
  stream : String
  status : String
  progress : String
  auxId : String
  error : String
  errorDetailMessage : String
  deriving DecidableEq

/-- The result of url.Parse that the program consumes: only Hostname()
is used (main.go line 133). -/
structure URLInfo where
  hostname : String
  deriving DecidableEq

/-- The container-create request assembled by CreateContainer
(main.go lines 134-156). -/
structure CreateReq where
  image : String
  cmd : List String
  mountSource : String
  mountTarget : String
  name : String
  deriving DecidableEq

/-- Oracle for the docker engine client: outcome of each engine call.
logsReadErr tells whether the log stream read fails mid-copy (an error
io.Copy would return; main.go line 115 discards it). -/
structure Engine where
  imageBuild : Except String (List BuildLine)
  containerCreate : CreateReq → Except String String
  containerStart : String → Except String Unit
  containerLogs : String → Except String (List (List Char))
  logsReadErr : String → Bool
  containerRemove : String → Except String Unit

/-- Engine-call events in program order. -/
inductive Event where
  | buildReq : Event
  | buildLine : BuildLine → Event
  | createReq : CreateReq → Event
  | startReq : String → Event
  | logsReq : String → Event
  | logsCopy : String → List LogEvent → Event
  | removeReq : String → Event
  deriving DecidableEq

inductive EventKind where
  | build : EventKind
  | buildLineK : EventKind
  | create : EventKind
  | start : EventKind
  | logs : EventKind
  | copy : EventKind
  | remove : EventKind
  deriving DecidableEq

def Event.kind : Event → EventKind
  | .buildReq => .build
  | .buildLine _ => .buildLineK
  | .createReq _ => .create
  | .startReq _ => .start
  | .logsReq _ => .logs
  | .logsCopy _ _ => .copy
  | .removeReq _ => .remove

/-! ## ImageProvisioner: ImageBuildResponse.Write and BuildImage
(main.go lines 181-217) -/

/-- Model of ImageBuildResponse.Write on one decoded line: a non-empty
error field calls LogFatal with the errorDetail message (main.go lines
184-186); otherwise the line is printed and consumption continues. -/
def ImageBuildResponseWrite (l : BuildLine) : Except Fatal Unit :=
  if l.error ≠ "" then .error (.buildError l.errorDetailMessage) else .ok ()

/-- io.Copy of the build response body into the ImageBuildResponse writer
(main.go line 213): lines are consumed in order until exhausted or until a
line is fatal. -/
def consumeBuildBody : List BuildLine → List Event × Except Fatal Unit
  | [] => ([], .ok ())
  | l :: ls =>
    match ImageBuildResponseWrite l with
    | .error f => ([Event.buildLine l], .error f)
    | .ok _ => (Event.buildLine l :: (consumeBuildBody ls).1, (consumeBuildBody ls).2)

/-- Model of BuildImage (main.go lines 203-217): issue the build call,
fatal on call error, otherwise consume the whole response body before
returning. -/
def BuildImage (eng : Engine) : List Event × Except Fatal Unit :=
  match eng.imageBuild with
  | .error _ => ([Event.buildReq], .error (.engineError "Unable to build image"))
  | .ok lines => (Event.buildReq :: (consumeBuildBody lines).1, (consumeBuildBody lines).2)

/-! ## ContainerLifecycleManager: CreateContainer and RunContainerThenRemove
(main.go lines 98-162) -/

/-- Hostname with every dot replaced by an underscore:
strings.ReplaceAll(url.Hostname(), ".", "_") at main.go line 133. -/
def replAllDot (h : String) : String :=
  ⟨h.data.map (fun c => if c = '.' then '_' else c)⟩

/-- The identifier derived from a parsed target, used as container name and
output subdirectory. -/
def identifierOf (u : URLInfo) : String := replAllDot u.hostname

/-- The create request of main.go lines 134-156: image gget, command
[git-dumper, target, /home/gget/identifier], bind mount output directory at
/home/gget, container name = identifier. -/
def mkCreateReq (output target : String) (u : URLInfo) : CreateReq :=
  { image := "gget"
    cmd := ["git-dumper", target, "/home/gget/" ++ identifierOf u]
    mountSource := output
    mountTarget := "/home/gget"
    name := identifierOf u }

/-- Model of CreateContainer (main.go lines 128-162): parse the target
(fatal on parse error, before any engine call), then issue the create
request (fatal on engine error), returning the container id. -/
def CreateContainer (parse : String → Except String URLInfo) (eng : Engine)
    (output target : String) : List Event × Except Fatal String :=
  match parse target with
  | .error e => ([], .error (.parseError e))
  | .ok u =>
    match eng.containerCreate (mkCreateReq output target u) with
    | .error _ =>
      ([Event.createReq (mkCreateReq output target u)],
        .error (.engineError "Unable to create a container"))
    | .ok id => ([Event.createReq (mkCreateReq output target u)], .ok id)

/-- Model of RunContainerThenRemove (main.go lines 98-125): start the
container (fatal on error), open the follow log stream (fatal on error),
io.Copy the stream through GitDumperLog discarding the copy result
(line 115), then call ContainerRemove.  The remove call's error is not
captured (line 117), and the err tested at line 122 is the nil error left
from ContainerLogs, so the remove outcome never produces a fatal. -/
def RunContainerThenRemove (eng : Engine) (id : String) : List Event × Except Fatal Unit :=
  match eng.containerStart id with
  | .error _ => ([Event.startReq id], .error (.engineError "Unable to start container"))
  | .ok _ =>
    match eng.containerLogs id with
    | .error _ =>
      ([Event.startReq id, Event.logsReq id],
        .error (.engineError "Unable to follow container log output"))
    | .ok chunks =>
      ([Event.startReq id, Event.logsReq id,
        Event.logsCopy id (chunks.map classify),
        Event.removeReq id], .ok ())

/-! ## JobOrchestrator: main (main.go lines 37-79) -/

/-- One job task: CreateContainer then RunContainerThenRemove
(main.go lines 70 and 77). -/
def runJob (parse : String → Except String URLInfo) (eng : Engine)
    (output target : String) : List Event × Except Fatal Unit :=
  match CreateContainer parse eng output target with
  | (evs, .error f) => (evs, .error f)
  | (evs, .ok id) => (evs ++ (RunContainerThenRemove eng id).1, (RunContainerThenRemove eng id).2)

/-- Outcome of one run of main after configuration handling: the build
phase trace and result, and one trace per spawned job.  Jobs are spawned
only after BuildImage returns successfully (main.go line 59 precedes lines
60-78); with several targets the job traces interleave among themselves at
run time, but each job's internal order is as recorded, and main returns
only after every job finishes (wg.Wait, line 74). -/
structure MainRun where
  buildTrace : List Event
  buildResult : Except Fatal Unit
  jobTraces : List (List Event × Except Fatal Unit)

/-- Model of main's orchestration for a resolved target list: BuildImage
first; on build success, one job per target.  A single -u target is the
singleton list; a -f file gives one target per line. -/
def mainRun (parse : String → Except String URLInfo) (eng : Engine)
    (output : String) (targets : List String) : MainRun :=
  match BuildImage eng with
  | (evs, .error f) => ⟨evs, .error f, []⟩
  | (evs, .ok _) => ⟨evs, .ok (), targets.map (fun t => runJob parse eng output t)⟩

/-! ## CancellationController: HandleSIGTERM (main.go lines 263-272)
wired with the cleanup callback of main.go lines 50-57 -/

inductive SigEvent where
  | cancelCtx : SigEvent
  | removeOutputCall : SigEvent
  | fatalReport : SigEvent
  deriving DecidableEq

/-- Model of the signal handler: with no signal delivered the goroutine
stays blocked (no events, no exit); on the first signal the callback runs
once — cancel the shared context, then os.RemoveAll(output), where a
removal failure calls LogFatal (which also exits with status 1) — and then
os.Exit(1).  Later signals are never received because the process has
exited. -/
def HandleSIGTERM (removeOutputFails : Bool) (signalsDelivered : Nat) :
    List SigEvent × Option Nat :=
  if signalsDelivered == 0 then ([], none)
  else if removeOutputFails then
    ([SigEvent.cancelCtx, SigEvent.removeOutputCall, SigEvent.fatalReport], some 1)
  else ([SigEvent.cancelCtx, SigEvent.removeOutputCall], some 1)

/-! ## Dot/underscore ambiguity of identifiers -/

/-- Two characters agree up to the dot/underscore substitution. -/
def ambigChar (a b : Char) : Bool :=
  (a == b) || ((a == '.') && (b == '_')) || ((a == '_') && (b == '.'))

def ambigChars : List Char → List Char → Bool
  | [], [] => true
  | a :: xs, b :: ys => ambigChar a b && ambigChars xs ys
  | _, _ => false

/-- Two hostnames differ only by the dot/underscore substitution. -/
def hostsAmbiguous (h1 h2 : String) : Bool := ambigChars h1.data h2.data

/-- All engine calls a job issues succeed: the target parses, and the
create, start and logs-open calls return ok.  Nothing is assumed about the
stream-read flag or the remove call's outcome. -/
def JobSucceeds (parse : String → Except String URLInfo) (eng : Engine)
    (output target : String) : Prop :=
  ∃ u cid chunks, parse target = .ok u ∧
    eng.containerCreate (mkCreateReq output target u) = .ok cid ∧
    eng.containerStart cid = .ok () ∧
    eng.containerLogs cid = .ok chunks

/-! ## Concrete fixtures used to evaluate the model on explicit inputs -/

def okLine : BuildLine :=
  { stream := "Step 1", status := "", progress := "", auxId := "",
    error := "", errorDetailMessage := "" }

def errLine : BuildLine :=
  { stream := "", status := "", progress := "", auxId := "",
    error := "build failed", errorDetailMessage := "the build broke" }

def parseW : String → Except String URLInfo := fun s =>
  if s = ":bad:" then .error "parse failure" else .ok ⟨"a.com"⟩

/-- An engine on which every call a job makes succeeds, while the remove
call fails (its error is discarded by the program). -/
def goodEngine : Engine :=
  { imageBuild := .ok [okLine]
    containerCreate := fun _ => .ok "cid0"
    containerStart := fun _ => .ok ()
    containerLogs := fun _ => .ok ["Fetching https://a.b/.git ...".toList]
    logsReadErr := fun _ => false
    containerRemove := fun _ => .error "remove failed" }

/-- An engine whose ContainerLogs call fails. -/
def logsFailEngine : Engine :=
  { goodEngine with containerLogs := fun _ => .error "stream open failure" }

/-- An engine whose ImageBuild call fails. -/
def buildFailEngine : Engine :=
  { goodEngine with imageBuild := .error "no daemon" }

/-- An engine whose build response carries an error line. -/
def buildErrLineEngine : Engine :=
  { goodEngine with imageBuild := .ok [okLine, errLine] }

/-- An engine whose ContainerCreate call fails. -/
def createFailEngine : Engine :=
  { goodEngine with containerCreate := fun _ => .error "create refused" }

/-- An engine whose ContainerStart call fails. -/
def startFailEngine : Engine :=
  { goodEngine with containerStart := fun _ => .error "start refused" }

/-! ## Helper lemmas -/

/-- A successful consumption of the build response body processed every
line of the response. -/
theorem consume_ok : ∀ (lines : List BuildLine) (evs : List Event),
    consumeBuildBody lines = (evs, Except.ok ()) → evs = lines.map Event.buildLine := by
  intro lines
  induction lines with
  | nil =>
    intro evs h
    simp [consumeBuildBody] at h
    simp [h]
  | cons l ls ih =>
    intro evs h
    simp only [consumeBuildBody, ImageBuildResponseWrite] at h
    split at h
    · simp at h
    · rw [Prod.ext_iff] at h
      obtain ⟨h1, h2⟩ := h
      simp at h1 h2
      rw [← h1, ih (consumeBuildBody ls).1 (by rw [← h2])]
      simp

/-- When no line of the build response carries an error, the whole body is
consumed and consumption succeeds. -/
theorem consume_allok : ∀ (lines : List BuildLine), (∀ l ∈ lines, l.error = "") →
    consumeBuildBody lines = (lines.map Event.buildLine, Except.ok ()) := by
  intro lines
  induction lines with
  | nil => intro _; simp [consumeBuildBody]
  | cons l ls ih =>
    intro h
    have hl : l.error = "" := h l (by simp)
    simp only [consumeBuildBody, ImageBuildResponseWrite, hl]
    simp [ih fun x hx => h x (by simp [hx])]

/-- The first error line of the build response stops consumption there,
with the errorDetail message as the fatal message. -/
theorem consume_err : ∀ (pre : List BuildLine) (bad : BuildLine) (rest : List BuildLine),
    (∀ l ∈ pre, l.error = "") → bad.error ≠ "" →
    consumeBuildBody (pre ++ bad :: rest) =
      (pre.map Event.buildLine ++ [Event.buildLine bad],
        Except.error (Fatal.buildError bad.errorDetailMessage)) := by
  intro pre
  induction pre with
  | nil =>
    intro bad rest _ hbad
    simp [consumeBuildBody, ImageBuildResponseWrite, hbad]
  | cons l ls ih =>
    intro bad rest hpre hbad
    have hl : l.error = "" := hpre l (by simp)
    simp only [List.cons_append, consumeBuildBody, ImageBuildResponseWrite, hl]
    simp [ih bad rest (fun x hx => hpre x (by simp [hx])) hbad]

/-- Every event recorded while consuming the build response body is a
buildLine event. -/
theorem consume_events : ∀ (lines : List BuildLine) (e : Event),
    e ∈ (consumeBuildBody lines).1 → ∃ l, e = Event.buildLine l := by
  intro lines
  induction lines with
  | nil => intro e he; simp [consumeBuildBody] at he
  | cons l ls ih =>
    intro e he
    simp only [consumeBuildBody, ImageBuildResponseWrite] at he
    split at he
    · simp at he
      exact ⟨l, he⟩
    · simp at he
      rcases he with he | he
      · exact ⟨l, he⟩
      · exact ih e he

/-- A job all of whose engine calls succeed runs the full ordered
create, start, logs-open, stream-copy, remove sequence and ends ok. -/
theorem runJob_ok (parse : String → Except String URLInfo) (eng : Engine)
    (output target : String) (h : JobSucceeds parse eng output target) :
    (runJob parse eng output target).2 = Except.ok () ∧
    (runJob parse eng output target).1.map Event.kind =
      [EventKind.create, EventKind.start, EventKind.logs, EventKind.copy, EventKind.remove] := by
  obtain ⟨u, cid, chunks, hp, hc, hs, hl⟩ := h
  simp [runJob, CreateContainer, RunContainerThenRemove, hp, hc, hs, hl, Event.kind]

/-- Characters that agree up to the dot/underscore substitution map to the
same character under the substitution, hence ambiguous hostnames map to
equal character lists. -/
theorem ambig_repl : ∀ (xs ys : List Char), ambigChars xs ys = true →
    xs.map (fun c => if c = '.' then '_' else c) =
      ys.map (fun c => if c = '.' then '_' else c) := by
  intro xs
  induction xs with
  | nil =>
    intro ys h
    cases ys with
    | nil => rfl
    | cons b bs => simp [ambigChars] at h
  | cons a xs ih =>
    intro ys h
    cases ys with
    | nil => simp [ambigChars] at h
    | cons b bs =>
      simp only [ambigChars, Bool.and_eq_true] at h
      obtain ⟨h1, h2⟩ := h
      simp only [List.map_cons, List.cons.injEq]
      refine ⟨?_, ih bs h2⟩
      simp only [ambigChar, Bool.or_eq_true, Bool.and_eq_true, beq_iff_eq] at h1
      rcases h1 with (h1 | ⟨ha, hb⟩) | ⟨ha, hb⟩
      · rw [h1]
      · rw [ha, hb]; simp
      · rw [ha, hb]; simp

/-! ## Claim theorems -/

/-- Claim C3: classification is a total pure per-chunk function: the chunk
"Fetching https://a.b/.git ..." yields a Fetching event whose URL is the
first URLRegex match "https://a.b/.git"; a chunk containing neither
sentinel yields an Other event carrying the raw bytes; and a sentinel
split across two consecutive chunks ("Fetch" and "ing https://a.b/.git
...") is not recognized, so both chunks classify as Other. -/
theorem classify_spec :
    classify "Fetching https://a.b/.git ...".toList =
      LogEvent.fetching "https://a.b/.git".toList ∧
    (∀ p : List Char, containsSub p fetchingSentinel = false →
      containsSub p testingSentinel = false → classify p = .other p) ∧
    classify "Fetch".toList = .other "Fetch".toList ∧
    classify "ing https://a.b/.git ...".toList =
      .other "ing https://a.b/.git ...".toList := by
  refine ⟨by decide, ?_, by decide, by decide⟩
  intro p h1 h2
  simp [classify, h1, h2]

/-- Witness for C3 at the concrete chunk "no sentinel here". -/
theorem classify_spec_witness :
    classify "no sentinel here".toList = .other "no sentinel here".toList :=
  classify_spec.2.1 "no sentinel here".toList (by decide) (by decide)

/-- Claim C10: a chunk containing both the "Fetching" and the "Testing"
sentinel classifies as Fetching — the Fetching branch takes precedence,
and exactly one event is produced. -/
theorem fetching_precedence (p : List Char)
    (hf : containsSub p fetchingSentinel = true)
    (ht : containsSub p testingSentinel = true) :
    classify p = .fetching (urlFind p) := by
  simp [classify, hf]

/-- Witness for C10 at a chunk containing both sentinels. -/
theorem fetching_precedence_witness :
    containsSub "Fetching Testing https://x.io/a".toList fetchingSentinel = true ∧
    containsSub "Fetching Testing https://x.io/a".toList testingSentinel = true ∧
    classify "Fetching Testing https://x.io/a".toList =
      .fetching (urlFind "Fetching Testing https://x.io/a".toList) :=
  ⟨by decide, by decide,
    fetching_precedence "Fetching Testing https://x.io/a".toList (by decide) (by decide)⟩

/-- Claim C5: on receipt of an interrupt or terminate signal the cleanup
callback runs exactly once — first cancelling the shared context, then
recursively deleting the output root — a deletion failure is itself fatal
and reported, and the process exits with status 1 in every case. -/
theorem sigterm_cleanup (removeOutputFails : Bool) (n : Nat) (h : 0 < n) :
    (HandleSIGTERM removeOutputFails n).1.count SigEvent.cancelCtx = 1 ∧
    (HandleSIGTERM removeOutputFails n).1.count SigEvent.removeOutputCall = 1 ∧
    (HandleSIGTERM removeOutputFails n).1.take 2 =
      [SigEvent.cancelCtx, SigEvent.removeOutputCall] ∧
    (HandleSIGTERM removeOutputFails n).2 = some 1 ∧
    (removeOutputFails = true →
      SigEvent.fatalReport ∈ (HandleSIGTERM removeOutputFails n).1) := by
  have hn : (n == 0) = false := by simp; omega
  cases removeOutputFails <;> simp [HandleSIGTERM, hn, List.count_cons]

/-- Witness for C5: one delivered signal with a failing output removal. -/
theorem sigterm_cleanup_witness :
    (HandleSIGTERM true 1).1.count SigEvent.cancelCtx = 1 ∧
    (HandleSIGTERM true 1).1.count SigEvent.removeOutputCall = 1 ∧
    (HandleSIGTERM true 1).1.take 2 = [SigEvent.cancelCtx, SigEvent.removeOutputCall] ∧
    (HandleSIGTERM true 1).2 = some 1 ∧
    (true = true → SigEvent.fatalReport ∈ (HandleSIGTERM true 1).1) :=
  sigterm_cleanup true 1 (by decide)

/-- Claim C9: a malformed target (one Go's url.Parse rejects) makes
CreateContainer fail fatally with the parse error before issuing any
container-create request, and a well-formed target never produces a
parse-error fatal. -/
theorem parse_error_before_create (parse : String → Except String URLInfo)
    (eng : Engine) (output target : String) :
    (∀ e, parse target = .error e →
      CreateContainer parse eng output target = ([], .error (.parseError e))) ∧
    (∀ u, parse target = .ok u → ∀ m,
      (CreateContainer parse eng output target).2 ≠ .error (.parseError m)) := by
  constructor
  · intro e he
    simp [CreateContainer, he]
  · intro u hu m
    simp only [CreateContainer, hu]
    cases hc : eng.containerCreate (mkCreateReq output target u) <;> simp

/-- Witness for C9: a rejected target yields the parse-error fatal and an
empty trace; an accepted target yields no parse-error fatal. -/
theorem parse_error_before_create_witness :
    CreateContainer parseW goodEngine "/out" ":bad:" =
      ([], .error (.parseError "parse failure")) ∧
    (CreateContainer parseW goodEngine "/out" "http://a.com/.git").2 ≠
      .error (.parseError "parse failure") :=
  ⟨(parse_error_before_create parseW goodEngine "/out" ":bad:").1 "parse failure" rfl,
    (parse_error_before_create parseW goodEngine "/out" "http://a.com/.git").2
      ⟨"a.com"⟩ rfl "parse failure"⟩

/-- Claim C4: the identifier is the parsed hostname with every dot
replaced by an underscore, it is used as the container name of the create
request, re-deriving it is deterministic, and two hostnames that differ
only by the dot/underscore substitution yield the same identifier. -/
theorem identifier_spec (parse : String → Except String URLInfo) (eng : Engine)
    (output target : String) :
    (∀ u, parse target = .ok u →
      (CreateContainer parse eng output target).1 =
        [Event.createReq (mkCreateReq output target u)] ∧
      (mkCreateReq output target u).name = replAllDot u.hostname) ∧
    (∀ u : URLInfo, identifierOf u = identifierOf u) ∧
    (∀ h1 h2 : String, hostsAmbiguous h1 h2 = true → replAllDot h1 = replAllDot h2) := by
  refine ⟨?_, fun u => rfl, ?_⟩
  · intro u hu
    refine ⟨?_, rfl⟩
    simp only [CreateContainer, hu]
    cases hc : eng.containerCreate (mkCreateReq output target u) <;> simp
  · intro h1 h2 hh
    simp only [hostsAmbiguous] at hh
    simp only [replAllDot]
    rw [ambig_repl h1.data h2.data hh]

/-- Witness for C4: the collision of hostnames a.com and a_com, and the
create request name for a parsed target. -/
theorem identifier_spec_witness :
    (CreateContainer parseW goodEngine "/out" "http://a.com/.git").1 =
      [Event.createReq (mkCreateReq "/out" "http://a.com/.git" ⟨"a.com"⟩)] ∧
    replAllDot "a.com" = replAllDot "a_com" ∧
    hostsAmbiguous "a.com" "a_com" = true ∧
    "a.com" ≠ "a_com" :=
  ⟨((identifier_spec parseW goodEngine "/out" "http://a.com/.git").1 ⟨"a.com"⟩ rfl).1,
    (identifier_spec parseW goodEngine "/out" "http://a.com/.git").2.2
      "a.com" "a_com" (by decide),
    by decide, by decide⟩

/-- Claim C2: the image build is a hard synchronization barrier: when any
job exists, the build call returned ok with its whole response stream
consumed, the build trace contains no container-create call, and a failed
build spawns no job at all. -/
theorem build_barrier (parse : String → Except String URLInfo) (eng : Engine)
    (output : String) (targets : List String) :
    ((mainRun parse eng output targets).jobTraces ≠ [] →
      ∃ lines, eng.imageBuild = .ok lines ∧
        (mainRun parse eng output targets).buildTrace =
          Event.buildReq :: lines.map Event.buildLine ∧
        (mainRun parse eng output targets).buildResult = .ok ()) ∧
    (∀ e ∈ (mainRun parse eng output targets).buildTrace, e.kind ≠ EventKind.create) ∧
    (∀ f, (mainRun parse eng output targets).buildResult = .error f →
      (mainRun parse eng output targets).jobTraces = []) := by
  cases hib : eng.imageBuild with
  | error m =>
    have hb : BuildImage eng =
        ([Event.buildReq], .error (.engineError "Unable to build image")) := by
      simp [BuildImage, hib]
    refine ⟨?_, ?_, ?_⟩
    · intro hj
      simp [mainRun, hb] at hj
    · intro e he
      simp [mainRun, hb] at he
      simp [he, Event.kind]
    · intro f _
      simp [mainRun, hb]
  | ok lines =>
    have hb : BuildImage eng =
        (Event.buildReq :: (consumeBuildBody lines).1, (consumeBuildBody lines).2) := by
      simp [BuildImage, hib]
    cases hr : (consumeBuildBody lines).2 with
    | error f =>
      have hb2 : BuildImage eng =
          (Event.buildReq :: (consumeBuildBody lines).1, .error f) := by rw [hb, hr]
      refine ⟨?_, ?_, ?_⟩
      · intro hj
        simp [mainRun, hb2] at hj
      · intro e he
        simp [mainRun, hb2] at he
        rcases he with he | he
        · simp [he, Event.kind]
        · obtain ⟨l, hl⟩ := consume_events lines e he
          simp [hl, Event.kind]
      · intro g _
        simp [mainRun, hb2]
    | ok u =>
      have hb2 : BuildImage eng =
          (Event.buildReq :: (consumeBuildBody lines).1, .ok ()) := by rw [hb, hr]
      have hevs : (consumeBuildBody lines).1 = lines.map Event.buildLine := by
        apply consume_ok lines
        rw [← hr]
      refine ⟨?_, ?_, ?_⟩
      · intro _
        refine ⟨lines, rfl, ?_, ?_⟩
        · simp [mainRun, hb2, hevs]
        · simp [mainRun, hb2]
      · intro e he
        simp [mainRun, hb2] at he
        rcases he with he | he
        · simp [he, Event.kind]
        · obtain ⟨l, hl⟩ := consume_events lines e he
          simp [hl, Event.kind]
      · intro f hf
        simp [mainRun, hb2] at hf

/-- Witness for C2: a run with one target on the good engine has a job,
so the build completed first with its stream fully consumed. -/
theorem build_barrier_witness :
    ∃ lines, goodEngine.imageBuild = .ok lines ∧
      (mainRun parseW goodEngine "/out" ["http://a.com/.git"]).buildTrace =
        Event.buildReq :: lines.map Event.buildLine ∧
      (mainRun parseW goodEngine "/out" ["http://a.com/.git"]).buildResult = .ok () :=
  (build_barrier parseW goodEngine "/out" ["http://a.com/.git"]).1
    (List.cons_ne_nil _ _)

/-- Claim C6: a build-response line with a non-empty error field aborts
the whole process at that line, reporting the errorDetail message: lines
after it are not processed and no job is ever created. -/
theorem build_error_line_aborts (parse : String → Except String URLInfo) (eng : Engine)
    (output : String) (targets : List String) (pre : List BuildLine)
    (bad : BuildLine) (rest : List BuildLine)
    (hbuild : eng.imageBuild = .ok (pre ++ bad :: rest))
    (hpre : ∀ l ∈ pre, l.error = "")
    (hbad : bad.error ≠ "") :
    (mainRun parse eng output targets).buildResult =
      .error (.buildError bad.errorDetailMessage) ∧
    (mainRun parse eng output targets).buildTrace =
      Event.buildReq :: (pre.map Event.buildLine ++ [Event.buildLine bad]) ∧
    (mainRun parse eng output targets).jobTraces = [] := by
  have hc := consume_err pre bad rest hpre hbad
  have hb : BuildImage eng =
      (Event.buildReq :: (pre.map Event.buildLine ++ [Event.buildLine bad]),
        .error (.buildError bad.errorDetailMessage)) := by
    simp [BuildImage, hbuild, hc]
  simp [mainRun, hb]

/-- Witness for C6: a response of one clean line followed by an error line
aborts with the errorDetail message and spawns no job. -/
theorem build_error_line_aborts_witness :
    (mainRun parseW buildErrLineEngine "/out" ["http://a.com/.git"]).buildResult =
      .error (.buildError errLine.errorDetailMessage) ∧
    (mainRun parseW buildErrLineEngine "/out" ["http://a.com/.git"]).buildTrace =
      Event.buildReq :: ([okLine].map Event.buildLine ++ [Event.buildLine errLine]) ∧
    (mainRun parseW buildErrLineEngine "/out" ["http://a.com/.git"]).jobTraces = [] :=
  build_error_line_aborts parseW buildErrLineEngine "/out" ["http://a.com/.git"]
    [okLine] errLine [] rfl (by decide) (by decide)

/-- Claim C7: with N targets and no fatal error anywhere, the orchestrator
runs exactly N jobs, each executing the ordered create, start, logs-open,
stream-copy, remove sequence to a terminal ok state, and returns the
completed trace of every one of them. -/
theorem orchestrator_fanout (parse : String → Except String URLInfo) (eng : Engine)
    (output : String) (targets : List String) (lines : List BuildLine)
    (hbuild : eng.imageBuild = .ok lines)
    (hlines : ∀ l ∈ lines, l.error = "")
    (hjobs : ∀ t ∈ targets, JobSucceeds parse eng output t) :
    (mainRun parse eng output targets).jobTraces.length = targets.length ∧
    ∀ tr ∈ (mainRun parse eng output targets).jobTraces,
      tr.2 = Except.ok () ∧ tr.1.map Event.kind =
        [EventKind.create, EventKind.start, EventKind.logs,
          EventKind.copy, EventKind.remove] := by
  have hc := consume_allok lines hlines
  have hb : BuildImage eng = (Event.buildReq :: lines.map Event.buildLine, .ok ()) := by
    simp [BuildImage, hbuild, hc]
  have hm : (mainRun parse eng output targets).jobTraces =
      targets.map (fun t => runJob parse eng output t) := by
    simp [mainRun, hb]
  rw [hm]
  constructor
  · simp
  · intro tr htr
    simp only [List.mem_map] at htr
    obtain ⟨t, ht, rfl⟩ := htr
    exact runJob_ok parse eng output t (hjobs t ht)

/-- Witness for C7: two targets on the good engine give two completed,
internally ordered job traces. -/
theorem orchestrator_fanout_witness :
    (mainRun parseW goodEngine "/out" ["http://a.com/.git", "http://b.org/.git"]).jobTraces.length = 2 ∧
    ∀ tr ∈ (mainRun parseW goodEngine "/out"
        ["http://a.com/.git", "http://b.org/.git"]).jobTraces,
      tr.2 = Except.ok () ∧ tr.1.map Event.kind =
        [EventKind.create, EventKind.start, EventKind.logs,
          EventKind.copy, EventKind.remove] :=
  orchestrator_fanout parseW goodEngine "/out" ["http://a.com/.git", "http://b.org/.git"]
    [okLine] rfl (by decide)
    (by
      intro t ht
      simp only [List.mem_cons, List.not_mem_nil, or_false] at ht
      rcases ht with rfl | rfl
      · exact ⟨⟨"a.com"⟩, "cid0", _, rfl, rfl, rfl, rfl⟩
      · exact ⟨⟨"a.com"⟩, "cid0", _, rfl, rfl, rfl, rfl⟩)

/-- Claim C8: build, create, start and logs-open failures are each fatal
with their respective messages, while a failing remove is swallowed: once
the log stream is open the job always ends ok with the remove attempted,
whatever the remove call returns. -/
theorem fatal_taxonomy (parse : String → Except String URLInfo) (eng : Engine)
    (output target id : String) :
    (∀ m, eng.imageBuild = .error m →
      (BuildImage eng).2 = .error (.engineError "Unable to build image")) ∧
    (∀ u, parse target = .ok u → ∀ m,
      eng.containerCreate (mkCreateReq output target u) = .error m →
      (CreateContainer parse eng output target).2 =
        .error (.engineError "Unable to create a container")) ∧
    (∀ m, eng.containerStart id = .error m →
      (RunContainerThenRemove eng id).2 =
        .error (.engineError "Unable to start container")) ∧
    (∀ m, eng.containerStart id = .ok () → eng.containerLogs id = .error m →
      (RunContainerThenRemove eng id).2 =
        .error (.engineError "Unable to follow container log output")) ∧
    (∀ chunks, eng.containerStart id = .ok () → eng.containerLogs id = .ok chunks →
      (RunContainerThenRemove eng id).2 = Except.ok () ∧
      Event.removeReq id ∈ (RunContainerThenRemove eng id).1) := by
  refine ⟨?_, ?_, ?_, ?_, ?_⟩
  · intro m hm
    simp [BuildImage, hm]
  · intro u hu m hm
    simp [CreateContainer, hu, hm]
  · intro m hm
    simp [RunContainerThenRemove, hm]
  · intro m hs hm
    simp [RunContainerThenRemove, hs, hm]
  · intro chunks hs hl
    simp [RunContainerThenRemove, hs, hl]

/-- Witness for C8: each failure mode on a concrete engine, and the
swallowed remove failure of the good engine (whose remove call errors). -/
theorem fatal_taxonomy_witness :
    (BuildImage buildFailEngine).2 = .error (.engineError "Unable to build image") ∧
    (CreateContainer parseW createFailEngine "/out" "http://a.com/.git").2 =
      .error (.engineError "Unable to create a container") ∧
    (RunContainerThenRemove startFailEngine "cid0").2 =
      .error (.engineError "Unable to start container") ∧
    (RunContainerThenRemove logsFailEngine "cid0").2 =
      .error (.engineError "Unable to follow container log output") ∧
    ((RunContainerThenRemove goodEngine "cid0").2 = Except.ok () ∧
      Event.removeReq "cid0" ∈ (RunContainerThenRemove goodEngine "cid0").1) :=
  ⟨(fatal_taxonomy parseW buildFailEngine "/out" "t" "cid0").1 "no daemon" rfl,
    (fatal_taxonomy parseW createFailEngine "/out" "http://a.com/.git" "cid0").2.1
      ⟨"a.com"⟩ rfl "create refused" rfl,
    (fatal_taxonomy parseW startFailEngine "/out" "t" "cid0").2.2.1 "start refused" rfl,
    (fatal_taxonomy parseW logsFailEngine "/out" "t" "cid0").2.2.2.1
      "stream open failure" rfl rfl,
    (fatal_taxonomy parseW goodEngine "/out" "t" "cid0").2.2.2.2
      ["Fetching https://a.b/.git ...".toList] rfl rfl⟩

/-- Counterexample to claim C1 as stated: on an engine whose ContainerLogs
call fails, the job dies fatally at the logs-open step and the trace
contains no remove call — the remove step is skipped. -/
theorem remove_skipped_on_logs_error :
    (RunContainerThenRemove logsFailEngine "cid0").2 =
      .error (.engineError "Unable to follow container log output") ∧
    Event.removeReq "cid0" ∉ (RunContainerThenRemove logsFailEngine "cid0").1 := by
  decide

/-- Claim C1 as amended: once start succeeded and the log stream opened
successfully, the remove step is always attempted as the job's finalizer —
stream-copy errors are discarded and a failing remove is ignored — but a
fatal engine error while starting the container or opening the log stream
exits the process before any remove is attempted. -/
theorem remove_after_stream_open (eng : Engine) (id : String)
    (chunks : List (List Char))
    (hs : eng.containerStart id = .ok ())
    (hl : eng.containerLogs id = .ok chunks) :
    (RunContainerThenRemove eng id).1 =
      [Event.startReq id, Event.logsReq id, Event.logsCopy id (chunks.map classify),
        Event.removeReq id] ∧
    (RunContainerThenRemove eng id).2 = Except.ok () := by
  simp [RunContainerThenRemove, hs, hl]

/-- Witness for the amended C1: on the good engine (whose remove call
fails and whose stream-read flag is irrelevant) the full trace ends with
the remove attempt and the job ends ok. -/
theorem remove_after_stream_open_witness :
    (RunContainerThenRemove goodEngine "cid0").1 =
      [Event.startReq "cid0", Event.logsReq "cid0",
        Event.logsCopy "cid0" (["Fetching https://a.b/.git ...".toList].map classify),
        Event.removeReq "cid0"] ∧
    (RunContainerThenRemove goodEngine "cid0").2 = Except.ok () :=
  remove_after_stream_open goodEngine "cid0"
    ["Fetching https://a.b/.git ...".toList] rfl rfl

end Gget

